import Mathlib

/-!
# Verification of the emotional-diary bot's scheduling and service layer

Shallow embedding of the repository's Python sources into Lean 4:

* `src/rate_limiter.py` — the sliding-window abuse rate limiter
  (`RateLimiter.is_allowed`, `RateLimiter.get_remaining_quota`);
* `src/db.py` — the storage layer (`get_active_users`, `cleanup_old_data`)
  together with its module-level import list, which decides name resolution;
* `src/main.py` — the bot command handlers (`pause_command`, `resume_command`),
  the callback dispatcher (`handle_callback`), the delivery callback
  (`send_daily_ping`) and the health endpoint (`health_check`);
* `src/analysis.py` — `EmotionAnalyzer.generate_summary` and `_parse_period`.

The scheduler core (`EmotionScheduler`, imported by `src/main.py` from
`scheduler`) is not present in the repository's files: `src/scheduler.py`
contains a duplicate of the analysis module instead.  The Time Rule Resolver
and the Clock/Dispatcher misfire semantics are therefore modelled from the
specification's words; those definitions carry a doc comment starting
`Modelled from the spec:`.

Machine conventions: instants are `Int` seconds (Python `datetime` arithmetic
never overflows or truncates, and the code only uses ordering and subtraction
by constants, so any linearly ordered abelian group is a faithful carrier);
local calendar dates are `Int` day numbers (the code stores `YYYY-MM-DD`
strings whose lexicographic order coincides with day order).
-/

/-- A Python exception, as far as the embedded code can raise one. -/
inductive PyErr where
  | nameError (n : String)
  | keyError (k : String)
  | transport (msg : String)
  deriving Repr, DecidableEq

/-! ## src/rate_limiter.py -/

namespace RateLimiter

/-- `RateLimiter.limits` (src/rate_limiter.py:20-26): per-action request count
and window length in seconds. -/
def limits : List (String × Nat × Int) :=
  [("emotion_entry", (50, 3600)),
   ("summary_request", (20, 3600)),
   ("export_request", (5, 3600)),
   ("general_command", (100, 3600)),
   ("message", (200, 3600))]

/-- `self.user_requests`: a `defaultdict(deque)` from `"{user_id}_{action}"`
keys to the queue of request instants, oldest first. -/
abbrev State := String → List Int

/-- A fresh limiter: every queue is empty. -/
def emptyState : State := fun _ => []

/-- Point update of one queue (in Python the deque is mutated in place). -/
def setQueue (st : State) (k : String) (q : List Int) : State :=
  fun k2 => if k2 = k then q else st k2

/-- `if action_type not in self.limits: action_type = 'general_command'`
(src/rate_limiter.py:40-41 and 81-82). -/
def effective_action (action : String) : String :=
  if (limits.lookup action).isSome then action else "general_command"

/-- `limit_config = self.limits[action_type]` after the fallback; the
lookup cannot miss, the default is never read. -/
def limit_config (action : String) : Nat × Int :=
  (limits.lookup (effective_action action)).getD (100, 3600)

/-- `user_key = f"{user_id}_{action_type}"`, built after the fallback. -/
def user_key (userId : Int) (action : String) : String :=
  toString userId ++ "_" ++ action

/-- `while requests_queue and requests_queue[0] < cutoff_time:
requests_queue.popleft()` — drop the front while it is older than the
cutoff. -/
def purgeOld (cutoff : Int) : List Int → List Int
  | [] => []
  | t :: ts => if t < cutoff then purgeOld cutoff ts else t :: ts

/-- `RateLimiter.is_allowed` (src/rate_limiter.py:28-67): purge instants
older than `now - window` from the user's queue, refuse if the queue already
holds `count` instants, otherwise record `now` and allow.  The mutated queue
persists in the state on both paths.  (The enclosing `try/except` never
triggers: no operation in the body raises.) -/
def is_allowed (st : State) (userId : Int) (action : String) (now : Int) :
    Bool × State :=
  let a := effective_action action
  let cfg := limit_config action
  let key := user_key userId a
  let q1 := purgeOld (now - cfg.2) (st key)
  if cfg.1 ≤ q1.length then (false, setQueue st key q1)
  else (true, setQueue st key (q1 ++ [now]))

/-- `RateLimiter.get_remaining_quota` (src/rate_limiter.py:69-102):
`max(0, max_requests - len(requests_queue))` after the same purge
(`Nat` subtraction is exactly `max 0` of the integer difference). -/
def get_remaining_quota (st : State) (userId : Int) (action : String)
    (now : Int) : Nat × State :=
  let a := effective_action action
  let cfg := limit_config action
  let key := user_key userId a
  let q1 := purgeOld (now - cfg.2) (st key)
  (cfg.1 - q1.length, setQueue st key q1)

/-- A sequence of `is_allowed` calls for one user and action, returning each
call's instant with its verdict. -/
def run_is_allowed (userId : Int) (action : String) :
    State → List Int → List (Int × Bool)
  | _, [] => []
  | st, t :: ts =>
    let r := is_allowed st userId action t
    (t, r.1) :: run_is_allowed userId action r.2 ts

/-- Follows the claim's words (a sliding-window counter): a call at instant
`t` is allowed iff fewer than `maxR` already-allowed calls lie in
`[t - window, t]`; the first list is the full history of allowed instants.
To be compared with `run_is_allowed`, which is read off the source. -/
def slidingWindowSpec (maxR : Nat) (window : Int) :
    List Int → List Int → List (Int × Bool)
  | _, [] => []
  | hist, t :: ts =>
    if (hist.filter (fun s => decide (t - window ≤ s))).length < maxR then
      (t, true) :: slidingWindowSpec maxR window (hist ++ [t]) ts
    else
      (t, false) :: slidingWindowSpec maxR window hist ts

/-- The instants of the allowed calls of a run, in call order. -/
def allowed_times (out : List (Int × Bool)) : List Int :=
  (out.filter (fun p => p.2)).map Prod.fst

/-- Every decomposition of the allowed-history around an element `a` puts at
most `maxR` allowed instants in `[a - window, a]` up to and including `a`. -/
def winBound (maxR : Nat) (window : Int) (T : List Int) : Prop :=
  ∀ l₁ a l₂, T = l₁ ++ a :: l₂ →
    ((l₁ ++ [a]).filter (fun s => decide (a - window ≤ s))).length ≤ maxR

end RateLimiter

/-! ## src/db.py -/

/-- A row of the `users` table (src/db.py:30-51); only the columns the
claims touch.  `last_activity` is a UTC instant in seconds. -/
structure UserRow where
  id : Int
  chat_id : Int
  paused : Bool
  last_activity : Int
  deriving Repr, DecidableEq

/-- A row of the `entries` table (src/db.py:53-81); `timestamp` is a UTC
instant in seconds. -/
structure EntryRow where
  id : Int
  user_id : Int
  timestamp : Int
  deriving Repr, DecidableEq

/-- A row of the `schedules` table (src/db.py:83-98).  `date_local` holds a
`YYYY-MM-DD` string in the source; it is carried here as a day number, which
is order-isomorphic to the lexicographic order the source compares with. -/
structure ScheduleRow where
  user_id : Int
  date_local : Int
  skipped : Bool
  deriving Repr, DecidableEq

/-- A row of the `user_settings` table (src/db.py:100-127); only
`data_retention_days` matters to the claims (`none` models SQL NULL). -/
structure SettingsRow where
  user_id : Int
  data_retention_days : Option Int
  deriving Repr, DecidableEq

/-- The database contents. -/
structure Database where
  users : List UserRow
  entries : List EntryRow
  schedules : List ScheduleRow
  settings : List SettingsRow
  deriving Repr, DecidableEq

/-- The names bound at module scope in src/db.py (its `import` lines 2-8 and
its top-level definitions).  Python resolves a global name at call time
against exactly this set; `from datetime import datetime, timezone` (line 3)
is the only `datetime` import. -/
def db_module_names : List String :=
  ["os", "datetime", "timezone", "create_engine", "Column", "Integer",
   "String", "DateTime", "Boolean", "Text", "Float", "ForeignKey", "JSON",
   "declarative_base", "sessionmaker", "relationship", "Session",
   "contextmanager", "logging", "logger", "DATABASE_URL", "engine",
   "SessionLocal", "Base", "User", "Entry", "Schedule", "UserSettings",
   "get_session", "init_db", "get_user_by_chat_id", "create_user",
   "update_user_activity", "get_active_users", "cleanup_old_data"]

/-- `get_active_users` (src/db.py:188-195).  The body first evaluates
`datetime.now(timezone.utc) - timedelta(days=days)`: `timedelta` is looked up
in the module globals and raises `NameError` when absent; only then would the
query filter on `last_activity >= cutoff` and `paused == False` run.
`now` is the current UTC instant in seconds. -/
def get_active_users (days : Int) (now : Int) (db : Database) :
    Except PyErr (List UserRow) :=
  if "timedelta" ∈ db_module_names then
    .ok (db.users.filter (fun u =>
      decide (now - days * 86400 ≤ u.last_activity) && !u.paused))
  else
    .error (.nameError "timedelta")

/-- What the surrounding spec sentence asks of `get_active_users`: the users
whose `last_activity` lies within the past `days` days and whose paused flag
is false.  Stated separately so the intended result is on record next to the
failing source function. -/
def active_users_spec (days : Int) (now : Int) (db : Database) : List UserRow :=
  db.users.filter (fun u =>
    decide (now - days * 86400 ≤ u.last_activity) && !u.paused)

/-- The settings row of a user, as the `join(UserSettings)` of
src/db.py:200 pairs them. -/
def user_settings_row (db : Database) (uid : Int) : Option SettingsRow :=
  db.settings.find? (fun s => s.user_id == uid)

/-- `if user.settings and user.settings.data_retention_days:` — the retention
value when the row exists and the column is truthy (not NULL, not 0). -/
def retention_truthy : Option SettingsRow → Option Int
  | some s =>
    match s.data_retention_days with
    | some d => if d ≠ 0 then some d else none
    | none => none
  | none => none

/-- The two `delete()` calls of src/db.py:207-216 for one user: entries with
`timestamp < cutoff_date`, schedules with `date_local < cutoff_date.strftime`
(day-number order standing in for the lexicographic date-string order). -/
def delete_old_rows (db : Database) (uid : Int) (cutoff : Int) : Database :=
  { db with
    entries := db.entries.filter (fun e =>
      !(e.user_id == uid && decide (e.timestamp < cutoff))),
    schedules := db.schedules.filter (fun s =>
      !(s.user_id == uid && decide (s.date_local < cutoff / 86400))) }

/-- The per-user loop of `cleanup_old_data` (src/db.py:202-219).  For the
first user whose settings row has a truthy `data_retention_days`, line 204
evaluates `timedelta(days=...)`, resolved against `db_module_names`. -/
def cleanup_loop (now : Int) : Database → List UserRow → Except PyErr Database
  | db, [] => .ok db
  | db, u :: rest =>
    match retention_truthy (user_settings_row db u.id) with
    | none => cleanup_loop now db rest
    | some d =>
      if "timedelta" ∈ db_module_names then
        cleanup_loop now (delete_old_rows db u.id (now - d * 86400)) rest
      else
        .error (.nameError "timedelta")

/-- `cleanup_old_data` (src/db.py:197-221): iterate the users that have a
settings row (the inner join of line 200) inside one `get_session`
transaction; an exception rolls the whole transaction back, so `.error`
leaves the database unchanged. -/
def cleanup_old_data (now : Int) (db : Database) : Except PyErr Database :=
  cleanup_loop now db
    (db.users.filter (fun u => (user_settings_row db u.id).isSome))

/-! ## src/main.py -/

/-- `session.query(User).filter(User.chat_id == chat_id).first()`. -/
def find_user_by_chat (db : Database) (chatId : Int) : Option UserRow :=
  db.users.find? (fun u => u.chat_id == chatId)

/-- Set the `paused` column of the user with the given chat id. -/
def set_paused (db : Database) (chatId : Int) (b : Bool) : Database :=
  { db with
    users := db.users.map (fun u =>
      if u.chat_id == chatId then { u with paused := b } else u) }

/-- The bot's state as the claims see it: the database plus the scheduler's
job registry.  The registry is kept abstractly as (chat id, job tag) pairs;
nothing in src/main.py's pause/resume path ever touches it, which is the
point at issue. -/
structure BotState where
  db : Database
  jobs : List (Int × String)
  deriving Repr, DecidableEq

/-- `EmotionalDiaryBot.pause_command` (src/main.py:196-209): look the user
up by chat id; if absent, reply `not_registered` and return; otherwise set
`user.paused = True` and commit.  No other statement runs: in particular the
scheduler and its job registry are never mentioned. -/
def pause_command (st : BotState) (chatId : Int) : BotState :=
  match find_user_by_chat st.db chatId with
  | none => st
  | some _ => { st with db := set_paused st.db chatId true }

/-- `EmotionalDiaryBot.resume_command` (src/main.py:212-225): identical to
`pause_command` with `user.paused = False`. -/
def resume_command (st : BotState) (chatId : Int) : BotState :=
  match find_user_by_chat st.db chatId with
  | none => st
  | some _ => { st with db := set_paused st.db chatId false }

/-- The registry entries belonging to one chat id. -/
def jobs_of_user (chatId : Int) (jobs : List (Int × String)) :
    List (Int × String) :=
  jobs.filter (fun j => j.1 == chatId)

/-- `str.startswith` over the character lists of the two strings. -/
def chars_start : List Char → List Char → Bool
  | _, [] => true
  | [], _ :: _ => false
  | c :: cs, d :: ds => (c == d) && chars_start cs ds

/-- Python `data.startswith(p)`. -/
def py_startswith (data p : String) : Bool :=
  chars_start data.data p.data

/-- The dispatch chain of `EmotionalDiaryBot.handle_callback`
(src/main.py:262-281), returning the handler a callback data string is
routed to, or `none` when no branch matches (then the handler body ends and
nothing beyond `query.answer()` happens). -/
def handle_callback_route (data : String) : Option String :=
  if py_startswith data "emotion_category_" then some "handle_emotion_category_selection"
  else if py_startswith data "emotion_" then some "handle_emotion_selection"
  else if py_startswith data "valence_" then some "handle_valence_selection"
  else if py_startswith data "arousal_" then some "handle_arousal_selection"
  else if py_startswith data "summary_" then some "handle_summary_request"
  else if py_startswith data "timezone_" then some "handle_timezone_selection"
  else if data = "confirm_delete" then some "handle_data_deletion"
  else if data = "cancel_delete" then some "edit_deletion_cancelled"
  else if data = "skip_cause" then some "handle_skip_cause"
  else if data = "finish_entry" then some "handle_finish_entry"
  else none

/-- The callback data of the three buttons `send_daily_ping` attaches to a
ping (src/main.py:589-595). -/
def daily_ping_buttons : List String :=
  ["start_entry", "postpone_15", "skip_today"]

/-- `EmotionalDiaryBot.send_daily_ping` (src/main.py:582-605): look the user
up; return (send nothing) when the user is absent or paused; otherwise send
the ping (transport errors are caught after the send attempt).  The result
is whether the ping is sent.  The function reads only the `users` table —
never `schedules` and never any skip flag. -/
def send_daily_ping (db : Database) (chatId : Int) : Bool :=
  match find_user_by_chat db chatId with
  | none => false
  | some u => !u.paused

/-- A JSON value, as far as the health endpoint's response needs one. -/
inductive JVal where
  | s (v : String)
  | b (v : Bool)
  | n (v : Int)
  | arr (v : List JVal)

/-- `health_check` (src/main.py:650-674): on a successful database probe,
HTTP 200 with the literal record of lines 660-666 (`scheduler` is the string
`"running"` or `"stopped"` from the scheduler's running flag); on any
exception, HTTP 500 with `status` and `error`.  Parameters: whether the
database probe succeeds, the scheduler's running flag, the ISO timestamp,
and the stringified exception. -/
def health_check (dbOk : Bool) (schedRunning : Bool) (nowIso : String)
    (errText : String) : Nat × List (String × JVal) :=
  if dbOk then
    (200, [("status", .s "healthy"),
           ("timestamp", .s nowIso),
           ("database", .s "connected"),
           ("scheduler", .s (if schedRunning then "running" else "stopped")),
           ("version", .s "1.0.0")])
  else
    (500, [("status", .s "unhealthy"), ("error", .s errText)])

/-- The record shape the claim's `get_status()` sentence describes: a
`running` boolean, a `total_jobs` integer, and an `upcoming` list.  Stated
from the claim's words, to be compared with `health_check`. -/
def get_status_claim_shape (resp : List (String × JVal)) : Prop :=
  (∃ v, resp.lookup "running" = some (JVal.b v))
  ∧ (∃ v, resp.lookup "total_jobs" = some (JVal.n v))
  ∧ (∃ v, resp.lookup "upcoming" = some (JVal.arr v))

/-! ## src/analysis.py -/

/-- `EmotionAnalyzer._parse_period` (src/analysis.py:119-127):
`period_map.get(period)`. -/
def parse_period (period : String) : Option Nat :=
  if period = "7" then some 7
  else if period = "14" then some 14
  else if period = "30" then some 30
  else if period = "90" then some 90
  else none

/-- Python `TEXTS[key]`: dict indexing raises `KeyError` on a missing key. -/
def dict_index (m : List (String × String)) (k : String) :
    Except PyErr String :=
  match m.lookup k with
  | some v => .ok v
  | none => .error (.keyError k)

/-- `TEXTS['no_data_for_period'].format(period=days)`. -/
def format_period (t : String) (days : Nat) : String :=
  t.replace "{period}" (toString days)

/-- The `try` body of `EmotionAnalyzer.generate_summary`
(src/analysis.py:38-114): parse the period; on `None` return
`TEXTS['invalid_period']`; otherwise query the entries
(`_get_entries_for_period`, a database call that may raise), return the
`no_data_for_period` text when there are none, and otherwise assemble the
summary.  `texts` stands for the `TEXTS` table of the absent `i18n` module;
`fetch` for the entries query; `build` for the summary-assembly block of
lines 50-114, which the claim never reaches. -/
def generate_summary_body (texts : List (String × String))
    (fetch : Int → Nat → Except PyErr (List EntryRow))
    (build : List EntryRow → Except PyErr String)
    (userId : Int) (period : String) : Except PyErr String :=
  match parse_period period with
  | none => dict_index texts "invalid_period"
  | some days => do
    let entries ← fetch userId days
    if entries.isEmpty then
      let t ← dict_index texts "no_data_for_period"
      .ok (format_period t days)
    else
      build entries

/-- `EmotionAnalyzer.generate_summary` (src/analysis.py:36-117): the `try`
body wrapped in `except Exception as e: return f"Ошибка при генерации
сводки: {str(e)}"` — every exception is caught and a string returned. -/
def generate_summary (texts : List (String × String))
    (fetch : Int → Nat → Except PyErr (List EntryRow))
    (build : List EntryRow → Except PyErr String)
    (userId : Int) (period : String) : String :=
  match generate_summary_body texts fetch build userId period with
  | .ok s => s
  | .error e => "Ошибка при генерации сводки: " ++ reprStr e

/-! ## The scheduler core, absent from src/

`src/main.py` line 16 imports `EmotionScheduler` from `scheduler`, but
`src/scheduler.py` holds a duplicate of the analysis module, so the Time
Rule Resolver and the Clock/Dispatcher exist only in the specification.
The definitions below are modelled from the spec's words. -/

/-- Split a character list on a separator, like `str.split`. -/
def split_on_char (sep : Char) : List Char → List (List Char)
  | [] => [[]]
  | c :: cs =>
    match split_on_char sep cs with
    | [] => if c == sep then [[], []] else [[c]]
    | g :: gs => if c == sep then [] :: g :: gs else (c :: g) :: gs

/-- A non-empty all-digit character list read as a number, `none`
otherwise — the behaviour of `int(...)` on a field of the split. -/
def str_to_nat : List Char → Option Nat
  | [] => none
  | cs =>
    if cs.all Char.isDigit then
      some (cs.foldl (fun n c => n * 10 + (c.toNat - 48)) 0)
    else none

/-- Modelled from the spec: §4.1's parsing of a local "HH:MM" string —
split on ':', two numeric fields, hour 0-23, minute 0-59; anything else is
malformed.  (The resolver itself is in the absent `EmotionScheduler`.) -/
def parse_local_time (s : String) : Option (Nat × Nat) :=
  match (split_on_char ':' s.data).map str_to_nat with
  | [some h, some m] => if h ≤ 23 ∧ m ≤ 59 then some (h, m) else none
  | _ => none

/-- Modelled from the spec: §4.1's weekday mask — all seven days if
weekends included, Monday-Friday only otherwise (0 = Monday). -/
def weekday_mask (weekends : Bool) : List Nat :=
  if weekends then [0, 1, 2, 3, 4, 5, 6] else [0, 1, 2, 3, 4]

/-- Modelled from the spec: a recurring trigger specification — hour,
minute, weekday mask and civil timezone (§3 "Scheduled job"). -/
structure TriggerSpec where
  hour : Nat
  minute : Nat
  days : List Nat
  tz : String
  deriving Repr, DecidableEq

/-- The recurring trigger for one local time under the given timezone and
weekend flag. -/
def mk_trigger (tz : String) (weekends : Bool) (t : Nat × Nat) : TriggerSpec :=
  { hour := t.1, minute := t.2, days := weekday_mask weekends, tz := tz }

/-- Modelled from the spec: §4.1's Time Rule Resolver — given a timezone
name, local "HH:MM" strings and a weekend flag, produce one recurring
trigger per distinct local time, failing on any malformed string with
`InvalidScheduleInput` (all-or-nothing). -/
def resolve_time_rules (tz : String) (times : List String)
    (weekends : Bool) : Except String (List TriggerSpec) :=
  match times.mapM parse_local_time with
  | none => .error "InvalidScheduleInput"
  | some parsed => .ok (parsed.dedup.map (mk_trigger tz weekends))

/-- Modelled from the spec: §4.3's misfire handling — at a loop tick at
`now`, the due occurrences that fire: due at or before `now`, not yet
handled, and within `grace` of their due instant. -/
def due_fires (grace : Int) (handled : List Int) (occs : List Int)
    (now : Int) : List Int :=
  occs.filter (fun d =>
    decide (d ≤ now) && !(handled.contains d) && decide (now - d ≤ grace))

/-- Modelled from the spec: the occurrences a tick settles — every due
occurrence not yet handled is handled afterwards, fired or silently
dropped. -/
def due_settled (handled : List Int) (occs : List Int) (now : Int) :
    List Int :=
  occs.filter (fun d => decide (d ≤ now) && !(handled.contains d))

/-- Modelled from the spec: a dispatcher run over the loop ticks, collecting
the fire events as (tick instant, due instant) pairs.  A missed occurrence
fires on the next tick only when within `grace`, otherwise it is dropped and
never catch-up-fired (§4.3). -/
def dispatcher_run (grace : Int) (occs : List Int) (handled : List Int) :
    List Int → List (Int × Int)
  | [] => []
  | t :: ts =>
    (due_fires grace handled occs t).map (fun d => (t, d)) ++
      dispatcher_run grace occs (handled ++ due_settled handled occs t) ts

/-- The number of times the occurrence due at `d` fires during a run. -/
def fire_count (d : Int) (events : List (Int × Int)) : Nat :=
  (events.filter (fun e => e.2 == d)).length

/-- The handled set after the dispatcher has processed a list of ticks. -/
def handled_after (occs : List Int) (handled : List Int) :
    List Int → List Int
  | [] => handled
  | t :: ts => handled_after occs (handled ++ due_settled handled occs t) ts

section ModelChecks

example : (RateLimiter.run_is_allowed 7 "export_request" RateLimiter.emptyState
    [0, 1, 2, 3, 4, 5, 3601]).map Prod.snd =
    [true, true, true, true, true, false, true] := by decide

example : (RateLimiter.is_allowed RateLimiter.emptyState 7 "no_such_action" 0).1 = true := by
  decide

example : parse_local_time "09:00" = some (9, 0) := by decide

example : parse_local_time "24:00" = none := by decide

example : handle_callback_route "summary_7" = some "handle_summary_request" := by decide

example : handle_callback_route "skip_today" = none := by decide

example : dispatcher_run 300 [100] [] [50, 350] = [(350, 100)] := by decide

example : dispatcher_run 300 [100] [] [50, 500, 600] = [] := by decide

end ModelChecks

/-! ## Shared helper lemmas -/

/-- `pause_command` never writes the job registry, whatever the lookup
finds. -/
theorem pause_command_jobs (st : BotState) (chatId : Int) :
    (pause_command st chatId).jobs = st.jobs := by
  rw [pause_command]
  cases find_user_by_chat st.db chatId <;> rfl

/-- `resume_command` never writes the job registry either. -/
theorem resume_command_jobs (st : BotState) (chatId : Int) :
    (resume_command st chatId).jobs = st.jobs := by
  rw [resume_command]
  cases find_user_by_chat st.db chatId <;> rfl

/-- `find?` over the row-wise `paused` rewrite of `set_paused` finds the
same user with the flag overwritten. -/
theorem find_map_set_paused (users : List UserRow) (c : Int) (b : Bool) :
    (users.map (fun u =>
      if u.chat_id == c then { u with paused := b } else u)).find?
        (fun u => u.chat_id == c) =
      (users.find? (fun u => u.chat_id == c)).map
        (fun u => { u with paused := b }) := by
  induction users with
  | nil => rfl
  | cons u rest ih =>
    by_cases h : u.chat_id == c
    · simp [List.find?, h]
    · simp only [List.map_cons, if_neg h]
      rw [List.find?_cons_of_neg _ (by simpa using h),
        List.find?_cons_of_neg _ (by simpa using h), ih]

/-- Lookup after `set_paused`, phrased through `find_user_by_chat`. -/
theorem find_user_set_paused (db : Database) (c : Int) (b : Bool) :
    find_user_by_chat (set_paused db c b) c =
      (find_user_by_chat db c).map (fun u => { u with paused := b }) := by
  rw [find_user_by_chat, set_paused]
  exact find_map_set_paused db.users c b

/-! ## C1 — pause/resume and the job registry -/

/-- A state with one registered user (chat id 100) and one scheduled job
belonging to that user. -/
def c1_state : BotState :=
  { db := { users := [{ id := 1, chat_id := 100, paused := false, last_activity := 0 }],
            entries := [], schedules := [], settings := [] },
    jobs := [(100, "daily_ping_09:00")] }

/-- C1, counterexample: pausing the user of `c1_state` leaves the user's
scheduled job in the registry — the pause operation does not remove 100% of
the user's jobs (it removes none). -/
theorem C1_counterexample :
    jobs_of_user 100 (pause_command c1_state 100).jobs ≠ [] := by decide

/-- C1, amended: `pause_command` only sets the user's `paused` flag and
leaves the job registry untouched; `resume_command` clears the flag, again
leaving the registry untouched (so the job ids after resume equal those
before the pause only because neither operation ever changed them); the
suppression of a paused user's pings happens at delivery time, where
`send_daily_ping` returns without sending. -/
theorem C1_pause_sets_flag_only (st : BotState) (chatId : Int) (u : UserRow)
    (h : find_user_by_chat st.db chatId = some u) :
    (pause_command st chatId).jobs = st.jobs
    ∧ (resume_command (pause_command st chatId) chatId).jobs = st.jobs
    ∧ find_user_by_chat (pause_command st chatId).db chatId =
        some { u with paused := true }
    ∧ send_daily_ping (pause_command st chatId).db chatId = false
    ∧ find_user_by_chat
        (resume_command (pause_command st chatId) chatId).db chatId =
        some { u with paused := false } := by
  have hp : pause_command st chatId =
      { st with db := set_paused st.db chatId true } := by
    rw [pause_command, h]
  have hfp : find_user_by_chat (pause_command st chatId).db chatId =
      some { u with paused := true } := by
    rw [hp, find_user_set_paused, h, Option.map_some']
  have hr : resume_command (pause_command st chatId) chatId =
      { pause_command st chatId with
        db := set_paused (pause_command st chatId).db chatId false } := by
    rw [resume_command, hfp]
  refine ⟨pause_command_jobs st chatId, ?_, hfp, ?_, ?_⟩
  · rw [resume_command_jobs, pause_command_jobs]
  · rw [send_daily_ping, hfp]
    rfl
  · rw [hr, find_user_set_paused, hfp, Option.map_some']

/-- C1 witness: the amended statement evaluated on `c1_state`. -/
theorem C1_pause_sets_flag_only_witness :
    find_user_by_chat c1_state.db 100 =
      some { id := 1, chat_id := 100, paused := false, last_activity := 0 }
    ∧ send_daily_ping (pause_command c1_state 100).db 100 = false :=
  ⟨rfl, (C1_pause_sets_flag_only c1_state 100
    { id := 1, chat_id := 100, paused := false, last_activity := 0 }
    rfl).2.2.2.1⟩

/-! ## C2 — skip_today and the delivery callback -/

/-- A non-paused user (chat id 200) whose schedule row for the current
local date carries `skipped = true`. -/
def c2_db : Database :=
  { users := [{ id := 2, chat_id := 200, paused := false, last_activity := 0 }],
    entries := [],
    schedules := [{ user_id := 2, date_local := 20000, skipped := true }],
    settings := [] }

/-- C2: the "skip today" button's callback data matches no branch of
`handle_callback`, although `send_daily_ping` offers that very button; and
the delivery callback sends the ping for a non-paused user regardless of any
schedule row — it reads no skip flag at all (its result is invariant under
arbitrary replacement of the schedules table). -/
theorem C2_skip_today_never_consulted :
    handle_callback_route "skip_today" = none
    ∧ "skip_today" ∈ daily_ping_buttons
    ∧ send_daily_ping c2_db 200 = true
    ∧ (∀ (db : Database) (s : List ScheduleRow) (chatId : Int),
        send_daily_ping { db with schedules := s } chatId =
          send_daily_ping db chatId) := by
  refine ⟨rfl, by decide, rfl, fun db s chatId => rfl⟩

/-! ## C5 — get_active_users -/

/-- C5: `get_active_users` raises `NameError` on every call — `timedelta`
is used on src/db.py:190 but `from datetime import datetime, timezone`
(line 3) binds no such name — instead of returning the active-user list the
claim (and the function's own docstring) describe, which
`active_users_spec` records. -/
theorem C5_get_active_users_raises (days now : Int) (db : Database) :
    get_active_users days now db = .error (.nameError "timedelta")
    ∧ get_active_users days now db ≠ .ok (active_users_spec days now db) := by
  constructor
  · rw [get_active_users, if_neg (by decide)]
  · rw [get_active_users, if_neg (by decide)]
    intro h
    exact Except.noConfusion h

/-! ## C7 — cleanup_old_data -/

/-- One user with default settings (`data_retention_days = 365`) and one
diary entry older than the retention cutoff. -/
def c7_db : Database :=
  { users := [{ id := 1, chat_id := 100, paused := false, last_activity := 39999999 }],
    entries := [{ id := 1, user_id := 1, timestamp := 0 }],
    schedules := [],
    settings := [{ user_id := 1, data_retention_days := some 365 }] }

/-- The run instant for the C7 scenario: past the 365-day retention of the
entry at instant 0. -/
def c7_now : Int := 40000000

/-- C7: on a database holding a user with retention settings and an entry
past the cutoff, `cleanup_old_data` raises `NameError` at the `timedelta`
on src/db.py:204 (the `get_session` transaction rolls back, so nothing is
deleted) instead of deleting exactly the expired rows. -/
theorem C7_cleanup_raises_deletes_nothing :
    cleanup_old_data c7_now c7_db = .error (.nameError "timedelta")
    ∧ c7_db.entries.any
        (fun e => decide (e.timestamp < c7_now - 365 * 86400)) = true := by
  exact ⟨rfl, rfl⟩

/-! ## C8 — the status/observability surface -/

/-- C8, counterexample: the health endpoint's healthy response has no
`running` boolean field (nor `total_jobs`, nor `upcoming`) — the claimed
record shape fails on a concrete call. -/
theorem C8_counterexample :
    ¬ get_status_claim_shape
      (health_check true true "2026-01-01T00:00:00+00:00" "").2 := by
  intro h
  obtain ⟨⟨v, hv⟩, -, -⟩ := h
  rw [show ((health_check true true "2026-01-01T00:00:00+00:00" "").2.lookup
    "running") = none from rfl] at hv
  exact Option.noConfusion hv

/-- C8, amended: the status surface is the `/health` endpoint; on a
successful database probe it returns HTTP 200 with exactly the fields
`status`, `timestamp`, `database`, `scheduler` and `version`, where
`scheduler` is the string "running" or "stopped" according to the
scheduler's running flag; it exposes no job count and no upcoming-firings
list; on a failed probe it returns HTTP 500 with `status` and `error`. -/
theorem C8_health_check_shape (r : Bool) (nowIso errText : String) :
    (health_check true r nowIso errText).1 = 200
    ∧ (health_check true r nowIso errText).2.map Prod.fst =
        ["status", "timestamp", "database", "scheduler", "version"]
    ∧ (health_check true r nowIso errText).2.lookup "scheduler" =
        some (JVal.s (if r then "running" else "stopped"))
    ∧ (health_check true r nowIso errText).2.lookup "total_jobs" = none
    ∧ (health_check true r nowIso errText).2.lookup "upcoming" = none
    ∧ (health_check false r nowIso errText).1 = 500
    ∧ (health_check false r nowIso errText).2.map Prod.fst =
        ["status", "error"] :=
  ⟨rfl, rfl, rfl, rfl, rfl, rfl, rfl⟩

/-! ## C9 — unknown action types fall back to general_command -/

/-- C9: an action type outside the five configured keys is silently handled
under the `general_command` limit of 100 requests per 3600 seconds — both
`is_allowed` and `get_remaining_quota` behave exactly as for
`general_command` (same verdict, same state, same shared queue key), and no
error is raised and nothing is unlimited. -/
theorem C9_unknown_action_fallback
    (st : RateLimiter.State) (userId : Int) (action : String) (now : Int)
    (h : RateLimiter.limits.lookup action = none) :
    RateLimiter.is_allowed st userId action now =
      RateLimiter.is_allowed st userId "general_command" now
    ∧ RateLimiter.get_remaining_quota st userId action now =
      RateLimiter.get_remaining_quota st userId "general_command" now
    ∧ RateLimiter.limit_config action = (100, 3600) := by
  have ha : RateLimiter.effective_action action = "general_command" := by
    rw [RateLimiter.effective_action, h]
    rfl
  have hc : RateLimiter.limit_config action = (100, 3600) := by
    rw [RateLimiter.limit_config, ha]
    rfl
  have hg : RateLimiter.effective_action "general_command" =
      "general_command" := rfl
  have hcg : RateLimiter.limit_config "general_command" = (100, 3600) := rfl
  refine ⟨?_, ?_, hc⟩
  · rw [RateLimiter.is_allowed, RateLimiter.is_allowed, ha, hg, hc, hcg]
  · rw [RateLimiter.get_remaining_quota, RateLimiter.get_remaining_quota,
      ha, hg, hc, hcg]

/-- C9 witness: the fallback evaluated for the action "unknown_action". -/
theorem C9_unknown_action_fallback_witness :
    RateLimiter.limits.lookup "unknown_action" = none
    ∧ RateLimiter.limit_config "unknown_action" = (100, 3600) :=
  ⟨rfl, (C9_unknown_action_fallback RateLimiter.emptyState 1
    "unknown_action" 0 rfl).2.2⟩

/-! ## C10 — generate_summary on invalid periods -/

/-- C10: for a period string outside {"7","14","30","90"},
`generate_summary` returns the invalid-period message whatever the entries
query would do (it is never consulted — the result is the same for every
`fetch` and `build`, including ones that raise); and an exception raised by
the query under a valid period is caught and turned into the error string,
so a string is returned on every input. -/
theorem C10_invalid_period_early_return
    (texts : List (String × String)) (msg : String)
    (fetch : Int → Nat → Except PyErr (List EntryRow))
    (build : List EntryRow → Except PyErr String)
    (userId : Int) (period : String) (e : PyErr)
    (hp : period ∉ (["7", "14", "30", "90"] : List String))
    (ht : texts.lookup "invalid_period" = some msg) :
    generate_summary texts fetch build userId period = msg
    ∧ generate_summary texts (fun _ _ => .error e) build userId "7" =
        "Ошибка при генерации сводки: " ++ reprStr e := by
  have h7 : period ≠ "7" := fun hh => hp (by simp [hh])
  have h14 : period ≠ "14" := fun hh => hp (by simp [hh])
  have h30 : period ≠ "30" := fun hh => hp (by simp [hh])
  have h90 : period ≠ "90" := fun hh => hp (by simp [hh])
  have hpp : parse_period period = none := by
    rw [parse_period, if_neg h7, if_neg h14, if_neg h30, if_neg h90]
  constructor
  · rw [generate_summary, generate_summary_body, hpp, dict_index, ht]
  · rfl

/-- C10 witness: an unknown period and a throwing query, evaluated. -/
theorem C10_invalid_period_early_return_witness :
    ("hello" ∉ (["7", "14", "30", "90"] : List String))
    ∧ generate_summary [("invalid_period", "Неверный период для анализа.")]
        (fun _ _ => .error (.transport "db down"))
        (fun _ => .ok "unused") 1 "hello" = "Неверный период для анализа." :=
  ⟨by decide, (C10_invalid_period_early_return
    [("invalid_period", "Неверный период для анализа.")]
    "Неверный период для анализа."
    (fun _ _ => .error (.transport "db down"))
    (fun _ => .ok "unused") 1 "hello" (.transport "db down")
    (by decide) rfl).1⟩

/-! ## C4 — the Time Rule Resolver (modelled from the spec) -/

/-- C4: on well-formed inputs the resolver succeeds and yields exactly one
recurring trigger per distinct local time (each distinct parsed time is
carried by exactly one trigger, an unknown time by none), every trigger
keeps the given civil timezone, and each trigger's weekday mask is all
seven days iff the weekend flag is true, Monday-Friday otherwise. -/
theorem C4_resolver_one_trigger_per_time (tz : String) (times : List String)
    (weekends : Bool) (parsed : List (Nat × Nat))
    (h : times.mapM parse_local_time = some parsed) :
    resolve_time_rules tz times weekends =
      .ok (parsed.dedup.map (mk_trigger tz weekends))
    ∧ (∀ t : Nat × Nat,
        ((parsed.dedup.map (mk_trigger tz weekends)).map
          (fun tr => (tr.hour, tr.minute))).countP (fun x => decide (x = t)) =
          if t ∈ parsed then 1 else 0)
    ∧ (∀ tr ∈ parsed.dedup.map (mk_trigger tz weekends),
        tr.tz = tz
        ∧ (tr.days = [0, 1, 2, 3, 4, 5, 6] ↔ weekends = true)
        ∧ (weekends = false → tr.days = [0, 1, 2, 3, 4])) := by
  refine ⟨by rw [resolve_time_rules, h], ?_, ?_⟩
  · intro t
    have hm : (parsed.dedup.map (mk_trigger tz weekends)).map
        (fun tr => (tr.hour, tr.minute)) = parsed.dedup := by
      rw [List.map_map]
      have hid : ((fun tr : TriggerSpec => (tr.hour, tr.minute)) ∘
          mk_trigger tz weekends) = id := by
        funext x
        cases x
        rfl
      rw [hid, List.map_id]
    rw [hm]
    have hcount := List.count_eq_of_nodup (a := t) (List.nodup_dedup parsed)
    simp only [List.mem_dedup] at hcount
    exact hcount
  · intro tr htr
    obtain ⟨t, ht, rfl⟩ := List.mem_map.mp htr
    refine ⟨rfl, ?_, ?_⟩
    · cases weekends <;> simp [mk_trigger, weekday_mask]
    · intro hw
      subst hw
      rfl

/-- C4 witness: the spec's concrete scenario — two times, weekends
excluded — evaluated through the theorem. -/
theorem C4_resolver_one_trigger_per_time_witness :
    (["09:00", "21:00"].mapM parse_local_time = some [(9, 0), (21, 0)])
    ∧ resolve_time_rules "Europe/Moscow" ["09:00", "21:00"] false =
        .ok [{ hour := 9, minute := 0, days := [0, 1, 2, 3, 4],
               tz := "Europe/Moscow" },
             { hour := 21, minute := 0, days := [0, 1, 2, 3, 4],
               tz := "Europe/Moscow" }] :=
  ⟨rfl, (C4_resolver_one_trigger_per_time "Europe/Moscow" ["09:00", "21:00"]
    false [(9, 0), (21, 0)] rfl).1⟩

/-! ## C3 — misfire grace semantics (modelled from the spec) -/

/-- Membership in a tick's fire set, unfolded. -/
theorem mem_due_fires {grace : Int} {handled occs : List Int} {now x : Int} :
    x ∈ due_fires grace handled occs now ↔
      x ∈ occs ∧ x ≤ now ∧ x ∉ handled ∧ now - x ≤ grace := by
  simp [due_fires, List.mem_filter, and_assoc]

/-- Membership in a tick's settled set, unfolded. -/
theorem mem_due_settled {handled occs : List Int} {now x : Int} :
    x ∈ due_settled handled occs now ↔
      x ∈ occs ∧ x ≤ now ∧ x ∉ handled := by
  simp [due_settled, List.mem_filter, and_assoc]

/-- `fire_count` distributes over concatenated event lists. -/
theorem fire_count_append (d : Int) (a b : List (Int × Int)) :
    fire_count d (a ++ b) = fire_count d a + fire_count d b := by
  rw [fire_count, fire_count, fire_count, List.filter_append,
    List.length_append]

/-- The fire events of one tick contribute one count per occurrence of the
due instant in the tick's fire set. -/
theorem fire_count_map (d t : Int) (l : List Int) :
    fire_count d (l.map (fun x => (t, x))) = l.count d := by
  rw [fire_count, ← List.countP_eq_length_filter, List.countP_map]
  rfl

/-- An occurrence already handled never fires on any later tick. -/
theorem dispatcher_no_fire_of_handled (grace : Int) (occs : List Int)
    (d : Int) :
    ∀ (ticks : List Int) (handled : List Int), d ∈ handled →
      fire_count d (dispatcher_run grace occs handled ticks) = 0 := by
  intro ticks
  induction ticks with
  | nil => intro handled _; rfl
  | cons t ts ih =>
    intro handled hd
    rw [dispatcher_run, fire_count_append, fire_count_map]
    rw [List.count_eq_zero.mpr (fun hmem => (mem_due_fires.mp hmem).2.2.1 hd),
      ih _ (List.mem_append_left _ hd)]

/-- While every tick precedes the due instant, the occurrence neither fires
nor becomes handled. -/
theorem dispatcher_pre (grace : Int) (occs : List Int) (d : Int) :
    ∀ (pre : List Int) (handled : List Int), (∀ s ∈ pre, s < d) →
      d ∉ handled →
      fire_count d (dispatcher_run grace occs handled pre) = 0
      ∧ d ∉ handled_after occs handled pre := by
  intro pre
  induction pre with
  | nil => intro handled _ hd; exact ⟨rfl, hd⟩
  | cons t ts ih =>
    intro handled hlt hd
    have htd : t < d := hlt t (List.mem_cons_self _ _)
    have hd2 : d ∉ handled ++ due_settled handled occs t := by
      intro hmem
      rcases List.mem_append.mp hmem with h1 | h2
      · exact hd h1
      · have := (mem_due_settled.mp h2).2.1
        omega
    obtain ⟨h1, h2⟩ := ih (handled ++ due_settled handled occs t)
      (fun s hs => hlt s (List.mem_cons_of_mem _ hs)) hd2
    refine ⟨?_, h2⟩
    rw [dispatcher_run, fire_count_append, fire_count_map, h1,
      List.count_eq_zero.mpr (fun hmem => ?_)]
    have := (mem_due_fires.mp hmem).2.1
    omega

/-- No occurrence of a duplicate-free job timeline ever fires more than
once across a whole run, whatever the starting handled set. -/
theorem dispatcher_at_most_once (grace : Int) (occs : List Int) (d : Int)
    (hnd : occs.Nodup) :
    ∀ (ticks : List Int) (handled : List Int),
      fire_count d (dispatcher_run grace occs handled ticks) ≤ 1 := by
  intro ticks
  induction ticks with
  | nil => intro handled; exact Nat.zero_le 1
  | cons t ts ih =>
    intro handled
    rw [dispatcher_run, fire_count_append, fire_count_map]
    by_cases hfire : d ∈ due_fires grace handled occs t
    · have hcount : (due_fires grace handled occs t).count d = 1 :=
        List.count_eq_one_of_mem (hnd.filter _) hfire
      have hm := mem_due_fires.mp hfire
      have hsettled : d ∈ due_settled handled occs t :=
        mem_due_settled.mpr ⟨hm.1, hm.2.1, hm.2.2.1⟩
      rw [hcount, dispatcher_no_fire_of_handled grace occs d ts _
        (List.mem_append_right _ hsettled)]
    · rw [List.count_eq_zero.mpr hfire, Nat.zero_add]
      exact ih _

/-- A run splits at any point of its tick list, threading the handled
set. -/
theorem dispatcher_run_append (grace : Int) (occs : List Int) :
    ∀ (l1 l2 handled : List Int),
      dispatcher_run grace occs handled (l1 ++ l2) =
        dispatcher_run grace occs handled l1 ++
          dispatcher_run grace occs (handled_after occs handled l1) l2 := by
  intro l1
  induction l1 with
  | nil => intro l2 handled; rfl
  | cons t ts ih =>
    intro l2 handled
    rw [List.cons_append, dispatcher_run, dispatcher_run, ih,
      List.append_assoc]
    rfl

/-- C3: an occurrence due at `d` while the dispatcher was down (every tick
before `t` precedes `d`, and the next tick `t` is at or after `d`) fires at
that tick exactly once if the elapsed time `t - d` is within the grace
window and never if it exceeds it; and no occurrence whatsoever fires more
than once over the whole run. -/
theorem C3_misfire_grace (grace : Int) (occs : List Int) (d t : Int)
    (pre post : List Int) (h_occ : d ∈ occs) (hnd : occs.Nodup)
    (h_pre : ∀ s ∈ pre, s < d) (h_due : d ≤ t) :
    fire_count d (dispatcher_run grace occs [] (pre ++ t :: post)) =
      (if t - d ≤ grace then 1 else 0)
    ∧ (∀ d2 : Int,
        fire_count d2 (dispatcher_run grace occs [] (pre ++ t :: post)) ≤ 1) := by
  refine ⟨?_, fun d2 => dispatcher_at_most_once grace occs d2 hnd _ _⟩
  obtain ⟨hpre0, hnotin⟩ :=
    dispatcher_pre grace occs d pre [] h_pre (List.not_mem_nil d)
  rw [dispatcher_run_append, fire_count_append, hpre0, Nat.zero_add,
    dispatcher_run, fire_count_append, fire_count_map]
  have hsettle : d ∈ due_settled (handled_after occs [] pre) occs t :=
    mem_due_settled.mpr ⟨h_occ, h_due, hnotin⟩
  rw [dispatcher_no_fire_of_handled grace occs d post _
    (List.mem_append_right _ hsettle), Nat.add_zero]
  by_cases hg : t - d ≤ grace
  · rw [if_pos hg]
    exact List.count_eq_one_of_mem (hnd.filter _)
      (mem_due_fires.mpr ⟨h_occ, h_due, hnotin, hg⟩)
  · rw [if_neg hg]
    exact List.count_eq_zero.mpr (fun hmem => hg (mem_due_fires.mp hmem).2.2.2)

/-- C3 witness: one occurrence due at 100, missed (the only earlier tick is
at 50), caught by the tick at 350 within a grace of 300, with a later tick
at 500 not re-firing it. -/
theorem C3_misfire_grace_witness :
    (100 : Int) ∈ ([100] : List Int)
    ∧ fire_count 100 (dispatcher_run 300 [100] [] ([50] ++ 350 :: [500])) = 1 := by
  refine ⟨by decide, ?_⟩
  have h := (C3_misfire_grace 300 [100] 100 350 [50] [500] (by decide)
    (by decide) (by decide) (by decide)).1
  rw [h]
  decide

/-! ## C6 — the sliding-window rate limiter -/

namespace RateLimiter

/-- Every configured action's window is 3600 seconds, and unknown actions
inherit `general_command`'s. -/
theorem limit_config_window (a : String) : (limit_config a).2 = 3600 := by
  unfold limit_config effective_action limits
  simp only [List.lookup]
  by_cases h1 : a == "emotion_entry" <;>
    by_cases h2 : a == "summary_request" <;>
    by_cases h3 : a == "export_request" <;>
    by_cases h4 : a == "general_command" <;>
    by_cases h5 : a == "message" <;>
    simp [h1, h2, h3, h4, h5]

/-- On a sorted queue, popping the stale front is the same as filtering the
whole queue by the cutoff. -/
theorem purgeOld_eq_filter (c : Int) :
    ∀ (l : List Int), l.Sorted (· ≤ ·) →
      purgeOld c l = l.filter (fun s => decide (c ≤ s)) := by
  intro l
  induction l with
  | nil => intro _; rfl
  | cons t ts ih =>
    intro h
    rw [List.sorted_cons] at h
    by_cases hc : t < c
    · have hnc : ¬ (c ≤ t) := not_le.mpr hc
      rw [purgeOld, if_pos hc, ih h.2, List.filter_cons]
      simp [hnc]
    · have hct : c ≤ t := not_lt.mp hc
      have hall : ∀ x ∈ ts, (fun s => decide (c ≤ s)) x = true := by
        intro x hx
        simpa using le_trans hct (h.1 x hx)
      rw [purgeOld, if_neg hc, List.filter_cons, List.filter_eq_self.mpr hall]
      simp [hct]

/-- Reading back the queue just written. -/
theorem setQueue_self (st : State) (k : String) (q : List Int) :
    setQueue st k q k = q := by
  simp [setQueue]

/-- Appending an upper bound to a sorted list keeps it sorted. -/
theorem sorted_snoc {l : List Int} {t : Int} (hl : l.Sorted (· ≤ ·))
    (hle : ∀ x ∈ l, x ≤ t) : (l ++ [t]).Sorted (· ≤ ·) :=
  List.pairwise_append.mpr ⟨hl, List.pairwise_singleton _ _,
    fun x hx y hy => by rw [List.mem_singleton.mp hy]; exact hle x hx⟩

/-- The source's limiter, run from a state whose queue for the user's key is
the recent part of an allowed-history, behaves exactly like the
claim-shaped sliding-window counter over that history. -/
theorem run_is_allowed_eq_sliding (userId : Int) (action : String) :
    ∀ (ts hist : List Int) (c : Int) (st : State),
      ts.Sorted (· ≤ ·) → hist.Sorted (· ≤ ·) →
      (∀ x ∈ hist, ∀ t ∈ ts, x ≤ t) →
      (∀ t ∈ ts, c ≤ t - (limit_config action).2) →
      st (user_key userId (effective_action action)) =
        hist.filter (fun s => decide (c ≤ s)) →
      run_is_allowed userId action st ts =
        slidingWindowSpec (limit_config action).1 (limit_config action).2
          hist ts := by
  intro ts
  induction ts with
  | nil => intro hist c st _ _ _ _ _; rfl
  | cons t ts ih =>
    intro hist c st hts hhist hle hc hst
    rw [List.sorted_cons] at hts
    have hw : (0 : Int) ≤ (limit_config action).2 := by
      rw [limit_config_window]
      norm_num
    have hfs : (hist.filter (fun s => decide (c ≤ s))).Sorted (· ≤ ·) :=
      hhist.sublist (List.filter_sublist hist)
    have hq : purgeOld (t - (limit_config action).2)
        (st (user_key userId (effective_action action)))
        = hist.filter (fun s => decide (t - (limit_config action).2 ≤ s)) := by
      rw [hst, purgeOld_eq_filter _ _ hfs, List.filter_filter]
      apply List.filter_congr
      intro a _
      by_cases h1 : t - (limit_config action).2 ≤ a
      · have h2 : c ≤ a := le_trans (hc t (List.mem_cons_self _ _)) h1
        simp [h1, h2]
      · simp [h1]
    have hle' : ∀ x ∈ hist, ∀ t' ∈ ts, x ≤ t' :=
      fun x hx t' ht' => hle x hx t' (List.mem_cons_of_mem _ ht')
    have hc' : ∀ t' ∈ ts, t - (limit_config action).2 ≤
        t' - (limit_config action).2 := by
      intro t' ht'
      have : t ≤ t' := hts.1 t' ht'
      omega
    rw [run_is_allowed, slidingWindowSpec, is_allowed]
    simp only [hq]
    by_cases hb : (limit_config action).1 ≤
        (hist.filter (fun s => decide (t - (limit_config action).2 ≤ s))).length
    · rw [if_pos hb, if_neg (not_lt.mpr hb)]
      refine congrArg _ (ih hist (t - (limit_config action).2) _ hts.2 hhist
        hle' hc' ?_)
      show setQueue st (user_key userId (effective_action action))
        (hist.filter (fun s => decide (t - (limit_config action).2 ≤ s)))
        (user_key userId (effective_action action)) = _
      rw [setQueue_self]
    · rw [if_neg hb, if_pos (not_le.mp hb)]
      have hsh : (hist ++ [t]).Sorted (· ≤ ·) :=
        sorted_snoc hhist (fun x hx => hle x hx t (List.mem_cons_self _ _))
      have hle2 : ∀ x ∈ hist ++ [t], ∀ t' ∈ ts, x ≤ t' := by
        intro x hx t' ht'
        rcases List.mem_append.mp hx with h1 | h2
        · exact hle' x h1 t' ht'
        · rw [List.mem_singleton.mp h2]
          exact hts.1 t' ht'
      refine congrArg _ (ih (hist ++ [t]) (t - (limit_config action).2) _
        hts.2 hsh hle2 hc' ?_)
      show setQueue st (user_key userId (effective_action action))
        (hist.filter (fun s => decide (t - (limit_config action).2 ≤ s)) ++ [t])
        (user_key userId (effective_action action)) = _
      rw [setQueue_self, List.filter_append]
      have h1 : [t].filter
          (fun s => decide (t - (limit_config action).2 ≤ s)) = [t] := by
        simp only [List.filter_cons, List.filter_nil]
        rw [if_pos (by simp; omega)]
      rw [h1]

/-- Filtering a run's events on "allowed, and instant satisfying `g`"
counts the same as filtering the allowed instants on `g`. -/
theorem allowed_pairs_length (g : Int → Bool) :
    ∀ (out : List (Int × Bool)),
      (out.filter (fun p => p.2 && g p.1)).length =
        ((allowed_times out).filter g).length := by
  intro out
  induction out with
  | nil => rfl
  | cons p ps ih =>
    obtain ⟨t, b⟩ := p
    cases b
    · simpa [allowed_times, List.filter_cons] using ih
    · by_cases hg : g t <;>
        simp [allowed_times, List.filter_cons, hg] at ih ⊢ <;>
        exact ih

/-- The empty history satisfies every window bound. -/
theorem winBound_nil (m : Nat) (w : Int) : winBound m w [] := by
  intro l₁ a l₂ h
  simp at h

/-- Splitting a snoc around a distinguished element: the element is the
appended one, or the split lies inside the prefix. -/
theorem snoc_split {α : Type} {h : List α} {t : α} {l₁ : List α} {a : α}
    {l₂ : List α} (he : h ++ [t] = l₁ ++ a :: l₂) :
    (l₁ = h ∧ a = t ∧ l₂ = []) ∨
      (∃ l₂', l₂ = l₂' ++ [t] ∧ h = l₁ ++ a :: l₂') := by
  rcases List.eq_nil_or_concat l₂ with rfl | ⟨l₂', c, rfl⟩
  · left
    obtain ⟨h1, h2⟩ := List.append_inj' he rfl
    injection h2 with h3 _
    exact ⟨h1.symm, h3.symm, rfl⟩
  · right
    rw [List.concat_eq_append] at he
    have he2 : h ++ [t] = (l₁ ++ a :: l₂') ++ [c] := by
      rw [he]
      simp
    obtain ⟨h1, h2⟩ := List.append_inj' he2 rfl
    injection h2 with h3 _
    exact ⟨l₂', by rw [List.concat_eq_append, h3], h1⟩

/-- The spec-shaped run keeps its allowed history sorted and window-bounded:
every allowed instant closes a window holding at most `m` allowed
instants. -/
theorem sliding_hist_good (m : Nat) (w : Int) (hw : 0 ≤ w) :
    ∀ (ts hist : List Int),
      ts.Sorted (· ≤ ·) → hist.Sorted (· ≤ ·) →
      (∀ x ∈ hist, ∀ t ∈ ts, x ≤ t) →
      winBound m w hist →
      (hist ++ allowed_times (slidingWindowSpec m w hist ts)).Sorted (· ≤ ·)
      ∧ winBound m w (hist ++ allowed_times (slidingWindowSpec m w hist ts)) := by
  intro ts
  induction ts with
  | nil =>
    intro hist _ hh _ hwb
    constructor
    · simpa [slidingWindowSpec, allowed_times] using hh
    · simpa [slidingWindowSpec, allowed_times] using hwb
  | cons t ts ih =>
    intro hist hts hh hle hwb
    rw [List.sorted_cons] at hts
    by_cases hcond : (hist.filter (fun s => decide (t - w ≤ s))).length < m
    · rw [slidingWindowSpec, if_pos hcond]
      have hat : allowed_times ((t, true) ::
          slidingWindowSpec m w (hist ++ [t]) ts)
          = t :: allowed_times (slidingWindowSpec m w (hist ++ [t]) ts) := by
        simp [allowed_times]
      rw [hat]
      have hsh : (hist ++ [t]).Sorted (· ≤ ·) :=
        sorted_snoc hh (fun x hx => hle x hx t (List.mem_cons_self _ _))
      have hle2 : ∀ x ∈ hist ++ [t], ∀ t' ∈ ts, x ≤ t' := by
        intro x hx t' ht'
        rcases List.mem_append.mp hx with h1 | h2
        · exact hle x h1 t' (List.mem_cons_of_mem _ ht')
        · rw [List.mem_singleton.mp h2]
          exact hts.1 t' ht'
      have hwb2 : winBound m w (hist ++ [t]) := by
        intro l₁ a l₂ hsplit
        rcases snoc_split hsplit with ⟨h1, h2, h3⟩ | ⟨l₂', _, hsp⟩
        · rw [h1, h2]
          have hft : [t].filter (fun s => decide (t - w ≤ s)) = [t] := by
            simp only [List.filter_cons, List.filter_nil]
            rw [if_pos (by simp; omega)]
          rw [List.filter_append, hft, List.length_append, List.length_singleton]
          omega
        · exact hwb l₁ a l₂' hsp
      have hres := ih (hist ++ [t]) hts.2 hsh hle2 hwb2
      rw [show hist ++ t :: allowed_times (slidingWindowSpec m w (hist ++ [t]) ts)
          = (hist ++ [t]) ++
            allowed_times (slidingWindowSpec m w (hist ++ [t]) ts) by simp]
      exact hres
    · rw [slidingWindowSpec, if_neg hcond]
      have hat : allowed_times ((t, false) :: slidingWindowSpec m w hist ts)
          = allowed_times (slidingWindowSpec m w hist ts) := by
        simp [allowed_times]
      rw [hat]
      exact ih hist hts.2 hh
        (fun x hx t' ht' => hle x hx t' (List.mem_cons_of_mem _ ht')) hwb

/-- In any list whose filter is non-empty there is a last element matching
the predicate, with nothing matching after it. -/
theorem filter_last_split {α : Type} (p : α → Bool) :
    ∀ (l : List α), l.filter p ≠ [] →
      ∃ l₁ a l₂, l = l₁ ++ a :: l₂ ∧ p a = true ∧ l₂.filter p = [] := by
  intro l
  induction l using List.reverseRecOn with
  | nil => intro h; exact absurd rfl h
  | append_singleton l b ih =>
    intro h
    by_cases hb : p b
    · exact ⟨l, b, [], rfl, hb, rfl⟩
    · have hfb : [b].filter p = [] := by simp [hb]
      rw [List.filter_append, hfb, List.append_nil] at h
      obtain ⟨l₁, a, l₂, hl, hpa, hl₂⟩ := ih h
      exact ⟨l₁, a, l₂ ++ [b], by rw [hl]; simp, hpa,
        by rw [List.filter_append, hl₂, hfb]; rfl⟩

/-- A window-bounded allowed history has at most `m` instants inside any
trailing interval `[τ - w, τ]`. -/
theorem winBound_filter (m : Nat) (w : Int) (hw : 0 ≤ w) (T : List Int)
    (hb : winBound m w T) (τ : Int) :
    (T.filter (fun s => decide (τ - w ≤ s) && decide (s ≤ τ))).length ≤ m := by
  by_cases hF : T.filter (fun s => decide (τ - w ≤ s) && decide (s ≤ τ)) = []
  · rw [hF]
    exact Nat.zero_le m
  · obtain ⟨l₁, a, l₂, rfl, hpa, hl₂⟩ := filter_last_split _ T hF
    have ha : (τ - w ≤ a) ∧ (a ≤ τ) := by simpa using hpa
    have hTf : (l₁ ++ a :: l₂).filter
        (fun s => decide (τ - w ≤ s) && decide (s ≤ τ)) =
        l₁.filter (fun s => decide (τ - w ≤ s) && decide (s ≤ τ)) ++ [a] := by
      rw [List.filter_append, List.filter_cons, if_pos hpa, hl₂]
    rw [hTf, List.length_append, List.length_singleton]
    have hmono : (l₁.filter
        (fun s => decide (τ - w ≤ s) && decide (s ≤ τ))).length ≤
        (l₁.filter (fun s => decide (a - w ≤ s))).length := by
      rw [← List.countP_eq_length_filter, ← List.countP_eq_length_filter]
      apply List.countP_mono_left
      intro x _ hxp
      have hx1 : (τ - w ≤ x) ∧ (x ≤ τ) := by simpa using hxp
      simp
      omega
    have hqa : (fun s => decide (a - w ≤ s)) a = true := by
      simp
      omega
    have hbb := hb l₁ a l₂ rfl
    have hqf : (l₁ ++ [a]).filter (fun s => decide (a - w ≤ s)) =
        l₁.filter (fun s => decide (a - w ≤ s)) ++ [a] := by
      rw [List.filter_append]
      simp only [List.filter_cons, List.filter_nil]
      rw [if_pos hqa]
    rw [hqf, List.length_append, List.length_singleton] at hbb
    omega

end RateLimiter

/-- C6: for any user, any action type and any nondecreasing sequence of call
instants, a fresh limiter behaves exactly like the claim's sliding-window
counter (each call is allowed iff fewer than the configured count of allowed
calls lie within the trailing window at that call, so further calls inside a
full window are refused); consequently at most the configured count of calls
return `True` inside any trailing interval of one window length; every
configured window is 3600 seconds and `export_request` is capped at 5. -/
theorem C6_rate_limiter_sliding_window (userId : Int) (action : String)
    (ts : List Int) (τ : Int) (hsort : ts.Sorted (· ≤ ·)) :
    RateLimiter.run_is_allowed userId action RateLimiter.emptyState ts =
      RateLimiter.slidingWindowSpec (RateLimiter.limit_config action).1
        (RateLimiter.limit_config action).2 [] ts
    ∧ ((RateLimiter.run_is_allowed userId action RateLimiter.emptyState
        ts).filter (fun p => p.2 &&
          (decide (τ - (RateLimiter.limit_config action).2 ≤ p.1) &&
            decide (p.1 ≤ τ)))).length ≤ (RateLimiter.limit_config action).1
    ∧ (RateLimiter.limit_config action).2 = 3600
    ∧ RateLimiter.limit_config "export_request" = (5, 3600) := by
  have hw : (0 : Int) ≤ (RateLimiter.limit_config action).2 := by
    rw [RateLimiter.limit_config_window]
    norm_num
  have h1 : RateLimiter.run_is_allowed userId action RateLimiter.emptyState ts =
      RateLimiter.slidingWindowSpec (RateLimiter.limit_config action).1
        (RateLimiter.limit_config action).2 [] ts := by
    cases ts with
    | nil => rfl
    | cons t ts' =>
      refine RateLimiter.run_is_allowed_eq_sliding userId action (t :: ts') []
        (t - (RateLimiter.limit_config action).2) RateLimiter.emptyState hsort
        List.sorted_nil (by simp) ?_ rfl
      intro t' ht'
      rcases List.mem_cons.mp ht' with rfl | hmem
      · exact le_refl _
      · have : t ≤ t' := (List.sorted_cons.mp hsort).1 t' hmem
        omega
  refine ⟨h1, ?_, RateLimiter.limit_config_window action, rfl⟩
  rw [h1]
  have hlen : ((RateLimiter.slidingWindowSpec (RateLimiter.limit_config action).1
      (RateLimiter.limit_config action).2 [] ts).filter (fun p => p.2 &&
        (decide (τ - (RateLimiter.limit_config action).2 ≤ p.1) &&
          decide (p.1 ≤ τ)))).length =
      ((RateLimiter.allowed_times (RateLimiter.slidingWindowSpec
        (RateLimiter.limit_config action).1
        (RateLimiter.limit_config action).2 [] ts)).filter
        (fun s => decide (τ - (RateLimiter.limit_config action).2 ≤ s) &&
          decide (s ≤ τ))).length :=
    RateLimiter.allowed_pairs_length
      (fun s => decide (τ - (RateLimiter.limit_config action).2 ≤ s) &&
        decide (s ≤ τ))
      (RateLimiter.slidingWindowSpec (RateLimiter.limit_config action).1
        (RateLimiter.limit_config action).2 [] ts)
  rw [hlen]
  have hgood := RateLimiter.sliding_hist_good
    (RateLimiter.limit_config action).1 (RateLimiter.limit_config action).2
    hw ts [] hsort List.sorted_nil (by simp)
    (RateLimiter.winBound_nil _ _)
  rw [List.nil_append] at hgood
  exact RateLimiter.winBound_filter _ _ hw _ hgood.2 τ

/-- C6 witness: six immediate `export_request` calls from a fresh limiter —
at most five allowed within the hour-long trailing window ending at
instant 5. -/
theorem C6_rate_limiter_sliding_window_witness :
    (([0, 1, 2, 3, 4, 5] : List Int).Sorted (· ≤ ·))
    ∧ ((RateLimiter.run_is_allowed 1 "export_request" RateLimiter.emptyState
        [0, 1, 2, 3, 4, 5]).filter (fun p => p.2 &&
          (decide ((5 : Int) - (RateLimiter.limit_config "export_request").2 ≤ p.1) &&
            decide (p.1 ≤ (5 : Int))))).length ≤
        (RateLimiter.limit_config "export_request").1 :=
  ⟨by decide, (C6_rate_limiter_sliding_window 1 "export_request"
    [0, 1, 2, 3, 4, 5] 5 (by decide)).2.1⟩
